import Mathlib

/-!
Verification development for the trial execution core of `tdw_physics`:
the seeded noise-injection engine (`noisy_rigidbody_dataset.py`), the trial
orchestrator and frame-label writer (`dataset.py`), and the trial scheduler /
resumability scan.  Python floats are modelled as rationals; the external
random samplers (`scipy.stats.norm.rvs`, `scipy.stats.vonmises.rvs`, the
von Mises-Fisher sampler from the missing `noisy_utils` module) and the real
square root used by `np.linalg.norm` are passed in as explicit function
parameters, so every definition is executable and the sequence of
`random_state` values handed to the samplers can be observed as a trace.
-/

namespace TdwPhysics

/-- A 3-component float vector, modelling the `{x, y, z}` dicts of the source. -/
structure Vec3 where
  x : ℚ
  y : ℚ
  z : ℚ
deriving DecidableEq, Repr

/-- A per-axis noise dictionary: `none` on an axis models both a missing key
and an explicit `None` value, which the guard
`k in n.position.keys() and n.position[k] is not None` treats identically. -/
structure AxisOpt where
  x : Option ℚ
  y : Option ℚ
  z : Option ℚ
deriving DecidableEq, Repr

/-- `RigidNoiseParams` (noisy_rigidbody_dataset.py, lines 30-72): every field
defaults to `None`; a `None` field means "no noise for that quantity". -/
structure RigidNoiseParams where
  position : Option AxisOpt := none
  rotation : Option AxisOpt := none
  velocity_dir : Option AxisOpt := none
  velocity_mag : Option ℚ := none
  mass : Option ℚ := none
  static_friction : Option ℚ := none
  dynamic_friction : Option ℚ := none
  bounciness : Option ℚ := none
  collision_dir : Option ℚ := none
  collision_mag : Option ℚ := none
  coll_threshold : Option ℚ := none
  start_simulate : Option ℤ := none
deriving DecidableEq, Repr

/-- `NO_NOISE = RigidNoiseParams()` (line 126): the all-unset configuration. -/
def NO_NOISE : RigidNoiseParams := {}

/-- The external stochastic samplers consumed by the noise engine.  The code
calls them with an explicit `random_state=sim_seed`, so each is a
deterministic function of its arguments and the seed; their numeric content
is irrelevant to the claims and is kept abstract as a parameter.
`sqrtQ` stands for the square root inside `np.linalg.norm` where the norm is
used as a value (not as a comparison). -/
structure Samplers where
  /-- `scipy.stats.norm.rvs loc scale (random_state := seed)`. -/
  normRvs : ℚ → ℚ → ℕ → ℚ
  /-- `scipy.stats.vonmises.rvs kappa loc (random_state := seed)`. -/
  vonmisesRvs : ℚ → ℚ → ℕ → ℚ
  /-- `noisy_utils.rand_von_mises_fisher seed mu (kappa := k)` first sample. -/
  vmfRvs : ℕ → Vec3 → ℚ → Vec3
  /-- square root, for `np.linalg.norm` used as a value. -/
  sqrtQ : ℚ → ℚ

/-- The running `self.sim_seed` counter together with the trace of
`random_state` values actually passed to the samplers, in call order. -/
structure DrawState where
  counter : ℕ
  seeds : List ℕ
deriving DecidableEq, Repr

/-- One stochastic draw: the caller passes `s` as `random_state` and then
executes `self.sim_seed += 1`. -/
def drawStep (st : DrawState) (s : ℕ) : DrawState :=
  ⟨st.counter + 1, st.seeds ++ [s]⟩

/-- The rational value of the IEEE double `numpy.pi`
(884279719003555 / 2^48), the constant underlying the degree/radian
conversions. -/
def piQ : ℚ := 884279719003555 / 281474976710656

/-- Modelled from the spec: `noisy_utils.deg2rad` (the module is absent from
`src/`), degree-to-radian conversion used on the Euler angles before the
von Mises draw ("each axis's Euler angle (in radians)"). -/
def deg2rad (x : ℚ) : ℚ := x * piQ / 180

/-- Modelled from the spec: `noisy_utils.rad2deg`, the inverse conversion
applied after the von Mises draw. -/
def rad2deg (x : ℚ) : ℚ := x * 180 / piQ

theorem rad2deg_deg2rad (x : ℚ) : rad2deg (deg2rad x) = x := by
  unfold rad2deg deg2rad piQ
  norm_num

/-- Result of `_random_placement`: the six perturbed quantities, the updated
`self.sim_seed` counter, and the trace of `random_state` values used. -/
structure PlacementResult where
  position : Option Vec3
  rotation : Vec3
  mass : Option ℚ
  dynamic_friction : Option ℚ
  static_friction : Option ℚ
  bounciness : Option ℚ
  counter : ℕ
  seeds : List ℕ
deriving DecidableEq, Repr

/-- One iteration of the position half of the `for k in XYZ` loop body of
`_random_placement` (lines 539-544): draw only when the per-axis spread is
configured (`k in n.position.keys() and n.position[k] is not None`) and
`position is not None`; the draw is `norm.rvs(position[k], n.position[k],
random_state=sim_seed)` followed by `self.sim_seed += 1`. -/
def pos_axis_step (S : Samplers) (nd : Option AxisOpt) (sel : AxisOpt → Option ℚ)
    (get : Vec3 → ℚ) (set : Vec3 → ℚ → Vec3) (position : Option Vec3)
    (sim_seed : ℕ) (st : DrawState) : Option Vec3 × DrawState :=
  match nd, position with
  | some d, some p =>
    match sel d with
    | some sk => (some (set p (S.normRvs (get p) sk sim_seed)), drawStep st sim_seed)
    | none => (some p, st)
  | _, p => (p, st)

/-- One iteration of the rotation half of the loop body (lines 545-549):
`vonmises.rvs(n.rotation[k], rotrad[k], random_state=sim_seed)` on the
radian angles, followed by `self.sim_seed += 1`. -/
def rot_axis_step (S : Samplers) (nd : Option AxisOpt) (sel : AxisOpt → Option ℚ)
    (get : Vec3 → ℚ) (set : Vec3 → ℚ → Vec3) (rotrad : Vec3)
    (sim_seed : ℕ) (st : DrawState) : Vec3 × DrawState :=
  match nd with
  | some d =>
    match sel d with
    | some kk => (set rotrad (S.vonmisesRvs kk (get rotrad) sim_seed), drawStep st sim_seed)
    | none => (rotrad, st)
  | none => (rotrad, st)

/-- One scalar draw of `_random_placement` (lines 552-566): when both the
spread and the true value are non-`None`,
`max(0, norm.rvs(loc=v, scale=nv, random_state=sim_seed))` followed by
`self.sim_seed += 1`. -/
def scalar_noise_step (S : Samplers) (nv : Option ℚ) (v : Option ℚ)
    (sim_seed : ℕ) (st : DrawState) : Option ℚ × DrawState :=
  match nv, v with
  | some sc, some x => (some (max 0 (S.normRvs x sc sim_seed)), drawStep st sim_seed)
  | _, x => (x, st)

/-- `_random_placement` (noisy_rigidbody_dataset.py, lines 517-575).
The `for k in XYZ` loop is unrolled (x, then y, then z; inside each axis the
position draw precedes the rotation draw), followed by the mass, dynamic
friction, static friction and bounciness draws, each clamped by `max 0`.
Every draw passes the call parameter `sim_seed` as `random_state` and then
increments the `self.sim_seed` counter by one. -/
def random_placement (n : RigidNoiseParams) (S : Samplers)
    (position : Option Vec3) (rotation : Vec3)
    (mass dynamic_friction static_friction bounciness : Option ℚ)
    (sim_seed : ℕ) (counter : ℕ) : PlacementResult :=
  let st : DrawState := ⟨counter, []⟩
  let rotrad : Vec3 := ⟨deg2rad rotation.x, deg2rad rotation.y, deg2rad rotation.z⟩
  let px := pos_axis_step S n.position (fun d => d.x) (fun p => p.x)
    (fun p v => { p with x := v }) position sim_seed st
  let rx := rot_axis_step S n.rotation (fun d => d.x) (fun p => p.x)
    (fun p v => { p with x := v }) rotrad sim_seed px.2
  let py := pos_axis_step S n.position (fun d => d.y) (fun p => p.y)
    (fun p v => { p with y := v }) px.1 sim_seed rx.2
  let ry := rot_axis_step S n.rotation (fun d => d.y) (fun p => p.y)
    (fun p v => { p with y := v }) rx.1 sim_seed py.2
  let pz := pos_axis_step S n.position (fun d => d.z) (fun p => p.z)
    (fun p v => { p with z := v }) py.1 sim_seed ry.2
  let rz := rot_axis_step S n.rotation (fun d => d.z) (fun p => p.z)
    (fun p v => { p with z := v }) ry.1 sim_seed pz.2
  let rotation' : Vec3 := ⟨rad2deg rz.1.x, rad2deg rz.1.y, rad2deg rz.1.z⟩
  let ms := scalar_noise_step S n.mass mass sim_seed rz.2
  let dfs := scalar_noise_step S n.dynamic_friction dynamic_friction sim_seed ms.2
  let sfs := scalar_noise_step S n.static_friction static_friction sim_seed dfs.2
  let bs := scalar_noise_step S n.bounciness bounciness sim_seed sfs.2
  ⟨pz.1, rotation', ms.1, dfs.1, sfs.1, bs.1, bs.2.counter, bs.2.seeds⟩

/-- Squared Euclidean norm of a vector; `np.linalg.norm v = sqrt (normSq v)`. -/
def normSq (v : Vec3) : ℚ := v.x ^ 2 + v.y ^ 2 + v.z ^ 2

/-- Executable form of the source comparison `np.linalg.norm v < t`:
over the reals, `sqrt (normSq v) < t` holds iff `0 < t` and `normSq v < t^2`
(see `normLt_iff_sqrt`). -/
def normLt (v : Vec3) (t : ℚ) : Bool := decide (0 < t) && decide (normSq v < t ^ 2)

theorem normSq_nonneg (v : Vec3) : 0 ≤ normSq v := by
  unfold normSq
  positivity

/-- `normLt` is faithful to the source's `np.linalg.norm v < t`. -/
theorem normLt_iff_sqrt (v : Vec3) (t : ℚ) :
    normLt v t = true ↔ Real.sqrt ((normSq v : ℚ) : ℝ) < (t : ℝ) := by
  unfold normLt
  have hnn : (0 : ℝ) ≤ ((normSq v : ℚ) : ℝ) := by exact_mod_cast normSq_nonneg v
  constructor
  · intro h
    simp only [Bool.and_eq_true, decide_eq_true_eq] at h
    obtain ⟨ht, hsq⟩ := h
    have ht' : (0 : ℝ) < (t : ℝ) := by exact_mod_cast ht
    have hsq' : ((normSq v : ℚ) : ℝ) < (t : ℝ) ^ 2 := by exact_mod_cast hsq
    calc Real.sqrt ((normSq v : ℚ) : ℝ) < Real.sqrt ((t : ℝ) ^ 2) :=
          Real.sqrt_lt_sqrt hnn hsq'
      _ = (t : ℝ) := by
          rw [Real.sqrt_sq ht'.le]
  · intro h
    have ht' : (0 : ℝ) < (t : ℝ) := lt_of_le_of_lt (Real.sqrt_nonneg _) h
    have hsq' : ((normSq v : ℚ) : ℝ) < (t : ℝ) ^ 2 := by
      have := (Real.sqrt_lt' ht').mp h
      exact this
    simp only [Bool.and_eq_true, decide_eq_true_eq]
    exact ⟨by exact_mod_cast ht', by exact_mod_cast hsq'⟩

/-- The engine commands emitted by the modelled code paths, as a tagged
variant mirroring the `{"$type": ...}` dicts. -/
inductive Cmd where
  | apply_force_at_position (force : Vec3) (position : Vec3) (id : ℤ)
  | teleport_object (id : ℤ) (position : Vec3)
  | rotate_object_to_euler_angles (id : ℤ) (euler_angles : Vec3)
  | set_mass (mass : ℚ) (id : ℤ)
  | set_physic_material (dynamic_friction static_friction bounciness : ℚ) (id : ℤ)
deriving DecidableEq, Repr

/-- Collision lifecycle state reported by the engine. -/
inductive CollState where
  | enter
  | stay
  | exit
deriving DecidableEq, Repr

/-- One record built by `_get_collision_data` (lines 859-898): the constructor
there guarantees `contact_points.length = num_contacts` (both lists are
comprehensions over `range(num_contacts)`). -/
structure CollisionData where
  agent_id : ℤ
  patient_id : ℤ
  relative_velocity : Vec3
  impulse : Vec3
  num_contacts : ℕ
  contact_points : List Vec3
  contact_normals : List Vec3
  state : CollState
deriving DecidableEq, Repr

/-- Modelled from the spec: `noisy_utils.rotmag2vec` (module absent from
`src/`) — "Recompose a perturbed impulse vector from the (possibly redrawn)
magnitude and direction": componentwise direction times magnitude. -/
def rotmag2vec (dir : Vec3) (mag : ℚ) : Vec3 :=
  ⟨dir.x * mag, dir.y * mag, dir.z * mag⟩

/-- Componentwise `impulse / np.linalg.norm impulse` and similar scalar
divisions of a vector. -/
def vecDiv (v : Vec3) (s : ℚ) : Vec3 := ⟨v.x / s, v.y / s, v.z / s⟩

/-- `_calculate_collision_differential` (lines 783-784):
`perturbed - original` per axis. -/
def calculate_collision_differential (original perturbed : Vec3) : Vec3 :=
  ⟨perturbed.x - original.x, perturbed.y - original.y, perturbed.z - original.z⟩

/-- `apply_collision_noise` (lines 722-775).  `cng` is the installed
`self.collision_noise_generator`; `coll_threshold` is the configured
`self._noise_params.coll_threshold` (the comparison would raise `TypeError`
were it `None`, so the modelled path is the configured one).  Division by
`num_contacts` is total, matching numpy scalar division which produces
inf/nan with a warning rather than raising when `num_contacts == 0`. -/
def apply_collision_noise (cng : ℕ → Vec3 → Vec3) (coll_threshold : ℚ)
    (sim_seed : ℕ) (data : Option CollisionData) : List Cmd :=
  match data with
  | none => []
  | some d =>
    if normLt d.impulse coll_threshold then []
    else
      let contact_points := d.contact_points
      let impulse := d.impulse
      let force := cng sim_seed impulse
      let delta_force := calculate_collision_differential impulse force
      let force_avg_p : Vec3 :=
        ⟨delta_force.x / (d.num_contacts : ℚ), delta_force.y / (d.num_contacts : ℚ),
          delta_force.z / (d.num_contacts : ℚ)⟩
      let force_avg_a : Vec3 :=
        ⟨-delta_force.x / (d.num_contacts : ℚ), -delta_force.y / (d.num_contacts : ℚ),
          -delta_force.z / (d.num_contacts : ℚ)⟩
      let cmds_p := contact_points.map fun cp =>
        Cmd.apply_force_at_position force_avg_p cp d.patient_id
      let cmds_a := contact_points.map fun cp =>
        Cmd.apply_force_at_position force_avg_a cp d.agent_id
      cmds_p ++ cmds_a

/-- `set_collision_noise_generator` (lines 786-820): installs a generator
(`some cng`) exactly when `collision_dir` or `collision_mag` is set, choosing
among the three closures of the source; with both unset the generator is
`None`. -/
def set_collision_noise_generator (S : Samplers) (noise_obj : RigidNoiseParams) :
    Option (ℕ → Vec3 → Vec3) :=
  match noise_obj.collision_dir, noise_obj.collision_mag with
  | none, none => none
  | some ncd, none =>
    some fun sim_seed impulse =>
      let impulse_rand_dir := S.vmfRvs sim_seed (vecDiv impulse (S.sqrtQ (normSq impulse))) ncd
      rotmag2vec impulse_rand_dir (S.sqrtQ (normSq impulse))
  | none, some ncm =>
    some fun sim_seed impulse =>
      let impulse_mag := S.sqrtQ (normSq impulse)
      let impulse_dir := vecDiv impulse impulse_mag
      let impulse_mag := max 0 (S.normRvs impulse_mag ncm sim_seed)
      rotmag2vec impulse_dir impulse_mag
  | some ncd, some ncm =>
    some fun sim_seed impulse =>
      let impulse_mag := S.sqrtQ (normSq impulse)
      let impulse_dir := vecDiv impulse impulse_mag
      let impulse_mag := max 0 (S.normRvs impulse_mag ncm sim_seed)
      let impulse_rand_dir := S.vmfRvs sim_seed impulse_dir ncd
      rotmag2vec impulse_rand_dir impulse_mag

/-- Per-object physics state as assembled by `_add_perturbation`
(lines 447-492) from the `rigi`/`srig`/`tran` records of a response. -/
structure ObjState where
  position : Vec3
  rotation : Vec3
  mass : ℚ
  dynamic_friction : ℚ
  static_friction : ℚ
  bounciness : ℚ
deriving DecidableEq, Repr

/-- `_add_perturbation` (lines 447-515), given the already-parsed per-object
states (the response parsing is the Engine Channel boundary): for each object
it calls `_random_placement` with the same `sim_seed` parameter and emits
teleport / rotate / set_mass / set_physic_material commands.  All six
quantities are passed as `some`, so the `Option.getD` defaults never fire. -/
def perturb_obj_step (n : RigidNoiseParams) (S : Samplers) (sim_seed : ℕ)
    (acc : List Cmd × ℕ × List ℕ) (o : ℤ × ObjState) : List Cmd × ℕ × List ℕ :=
  let oid := o.1
  let st := o.2
  let r := random_placement n S (some st.position) st.rotation (some st.mass)
    (some st.dynamic_friction) (some st.static_friction) (some st.bounciness)
    sim_seed acc.2.1
  let pos := r.position.getD ⟨0, 0, 0⟩
  let newCmds : List Cmd :=
    [Cmd.teleport_object oid pos,
     Cmd.rotate_object_to_euler_angles oid r.rotation,
     Cmd.set_mass (r.mass.getD 0) oid,
     Cmd.set_physic_material (r.dynamic_friction.getD 0) (r.static_friction.getD 0)
       (r.bounciness.getD 0) oid]
  (acc.1 ++ newCmds, r.counter, acc.2.2 ++ r.seeds)

def add_perturbation (n : RigidNoiseParams) (S : Samplers)
    (objs : List (ℤ × ObjState)) (sim_seed : ℕ) (counter : ℕ) :
    List Cmd × ℕ × List ℕ :=
  objs.foldl (perturb_obj_step n S sim_seed) ([], counter, [])

/-- `get_per_frame_commands` (noisy_rigidbody_dataset.py, lines 652-720),
restricted to its noise-injection effect.  `gen` is
`self.collision_noise_generator`; `start_simulate` and `coll_threshold` are
the configured values (both are only read when a generator is installed).
`coll_data` is the result of `_get_collision_data resp`; `objs` the parsed
object states used by `_add_perturbation`.  Returns the commands, the updated
`self.sim_seed` counter and the trace of `random_state` values used (one
entry per placement draw, plus one per collision event, reflecting the
`self.sim_seed += 1` after each `apply_collision_noise` call). -/
def get_per_frame_commands (gen : Option (ℕ → Vec3 → Vec3))
    (start_simulate : ℤ) (coll_threshold : ℚ) (n : RigidNoiseParams) (S : Samplers)
    (objs : List (ℤ × ObjState)) (coll_data : List CollisionData)
    (frame : ℤ) (sim_seed : ℕ) (counter : ℕ) : List Cmd × ℕ × List ℕ :=
  match gen with
  | none => ([], counter, [])
  | some g =>
    if start_simulate ≤ frame then
      let pert :=
        if frame = start_simulate then add_perturbation n S objs sim_seed counter
        else ([], counter, [])
      coll_data.foldl
        (fun acc cd =>
          let coll_noise_cmds := apply_collision_noise g coll_threshold sim_seed (some cd)
          (acc.1 ++ coll_noise_cmds, acc.2.1 + 1, acc.2.2 ++ [sim_seed]))
        pert
    else ([], counter, [])

/-- The `labels` sub-record written per frame. -/
structure Labels where
  trial_end : Bool
  trial_timeout : Bool
  trial_complete : Bool
deriving DecidableEq, Repr

/-- `Dataset._write_frame_labels` (dataset.py, lines 943-979), as a function
of the completion predicate `is_done` (abstracted over the response), the
`frame_num` argument (an integer: the first-frame write passes `-1`), and the
`sleeping` flag handed in by the caller. -/
def write_frame_labels (is_done : ℤ → Bool) (frame_num : ℤ) (sleeping : Bool) :
    Labels × ℤ × Bool :=
  let complete := if frame_num > 0 then is_done frame_num else false
  let done := sleeping || complete
  (⟨done, sleeping && !complete, complete && !sleeping⟩, frame_num, done)

/-- The stepping loop of `Dataset.trial` (dataset.py, lines 456-520):
`while (not done) and (frame < max_frames)`, where `done` is the fourth
component of `_write_frame` — the `sleeping` flag — here abstracted as the
stream `sleeping : ℕ → Bool` indexed by frame number.  Returns the list of
`(frame number, sleeping flag)` pairs written inside the loop, in order.
The fuel argument equals `max_frames - frame`, so the guard `frame <
max_frames` is the fuel being nonzero. -/
def step_loop (sleeping : ℕ → Bool) (frame : ℕ) (done : Bool) :
    ℕ → List (ℕ × Bool)
  | 0 => []
  | fuel + 1 =>
    if done then []
    else
      let f := frame + 1
      (f, sleeping f) :: step_loop sleeping f (sleeping f) fuel

/-- All in-loop frame writes of one trial: the loop starts at `frame = 0`
with `done = False` and runs with fuel `max_frames`. -/
def trial_frames (sleeping : ℕ → Bool) (max_frames : ℕ) : List (ℕ × Bool) :=
  step_loop sleeping 0 false max_frames

/-- The writes `Dataset.trial` performs against the hdf5 store, in order. -/
inductive StoreOp where
  | azimuth
  | static
  | frames_group
  | frame (i : ℕ)
deriving DecidableEq, Repr

/-- The store-operation trace of `Dataset.trial` (the no-noise path,
dataset.py, lines 380-520): `azimuth` group, `static` group written by
`_write_static_data`, `frames` group, frame 0, then the loop frames. -/
def base_trial_ops (sleeping : ℕ → Bool) (max_frames : ℕ) : List StoreOp :=
  [StoreOp.azimuth, StoreOp.static, StoreOp.frames_group, StoreOp.frame 0] ++
    (trial_frames sleeping max_frames).map (fun e => StoreOp.frame e.1)

/-- The store-operation trace of `NoisyRigidbodiesDataset.trial` (the
noise-injection path, noisy_rigidbody_dataset.py, lines 298-386): it creates
the file, then the `frames` group, frame 0 and the loop frames — no
`static` group is ever created and `_write_static_data` is never called. -/
def noisy_trial_ops (sleeping : ℕ → Bool) (max_frames : ℕ) : List StoreOp :=
  [StoreOp.frames_group, StoreOp.frame 0] ++
    (trial_frames sleeping max_frames).map (fun e => StoreOp.frame e.1)

/-- The resumability scan of `trial_loop` (dataset.py, lines 650-656 and
noisy_rigidbody_dataset.py, lines 403-409): `exists_up_to` starts at `-1`,
is raised to the largest stem of the existing `*.hdf5` files, then
incremented. -/
def scan_step (a : ℤ) (s : ℕ) : ℤ := max a (s : ℤ)

def exists_up_to (stems : List ℕ) : ℕ :=
  ((stems.foldl scan_step (-1)) + 1).toNat

/-- The trial indices executed by `Dataset.trial_loop` (lines 637-759):
`for i in range(exists_up_to, num)`, with the trial run unconditionally. -/
def base_trial_loop_indices (stems : List ℕ) (num : ℕ) : List ℕ :=
  List.range' (exists_up_to stems) (num - exists_up_to stems)

/-- The trial indices executed by `NoisyRigidbodiesDataset.trial_loop`
(lines 388-445): as the base loop, but `if i not in self.indexes: continue`
additionally skips every index outside `self.indexes`. -/
def noisy_trial_loop_indices (stems : List ℕ) (num : ℕ) (indexes : List ℕ) :
    List ℕ :=
  (base_trial_loop_indices stems num).filter (fun i => decide (i ∈ indexes))

/-- A flat file system: finitely many paths mapped to file contents
(contents abstracted as naturals). -/
def FS := List (String × ℕ)

/-- Python's `shutil.move src dst` for a same-filesystem move of a regular
file onto a regular-file destination path: it delegates to `os.rename`,
whose POSIX semantics silently replace an existing destination; it raises
(`.error`) only when the source is missing. -/
def shutil_move (src dst : String) (fs : FS) : Except String FS :=
  match List.lookup src fs with
  | none => Except.error "FileNotFoundError"
  | some content =>
    Except.ok ((dst, content) ::
      (fs.filter fun e => !(e.1 == src) && !(e.1 == dst)))

/-- Trial finalization (dataset.py, lines 624-630 and
noisy_rigidbody_dataset.py, lines 382-385): after closing the store,
`shutil.move(temp_path, filepath)`. -/
def finalize_trial (temp_path filepath : String) (fs : FS) : Except String FS :=
  shutil_move temp_path filepath fs

/-! ### Seed-usage bookkeeping

`SeedInv s c0 st` says that every `random_state` value recorded so far equals
the fixed call parameter `s`, and that the running `self.sim_seed` counter
has advanced by exactly one per recorded draw since its initial value `c0`. -/

def SeedInv (s c0 : ℕ) (st : DrawState) : Prop :=
  (∀ e ∈ st.seeds, e = s) ∧ st.counter = c0 + st.seeds.length

theorem seedInv_init (s c0 : ℕ) : SeedInv s c0 ⟨c0, []⟩ := by
  constructor
  · intro e he
    simp at he
  · simp

theorem seedInv_drawStep {s c0 : ℕ} {st : DrawState} (h : SeedInv s c0 st) :
    SeedInv s c0 (drawStep st s) := by
  obtain ⟨h1, h2⟩ := h
  constructor
  · intro e he
    simp only [drawStep, List.mem_append, List.mem_singleton] at he
    rcases he with he | he
    · exact h1 e he
    · exact he
  · simp [drawStep, h2]
    omega

theorem pos_axis_step_inv (S : Samplers) (nd : Option AxisOpt)
    (sel : AxisOpt → Option ℚ) (get : Vec3 → ℚ) (set : Vec3 → ℚ → Vec3)
    (position : Option Vec3) (s c0 : ℕ) (st : DrawState) (h : SeedInv s c0 st) :
    SeedInv s c0 (pos_axis_step S nd sel get set position s st).2 := by
  cases nd with
  | none => simpa [pos_axis_step] using h
  | some d =>
    cases position with
    | none => simpa [pos_axis_step] using h
    | some p =>
      cases hsel : sel d with
      | none => simpa [pos_axis_step, hsel] using h
      | some sk => simpa [pos_axis_step, hsel] using seedInv_drawStep h

theorem rot_axis_step_inv (S : Samplers) (nd : Option AxisOpt)
    (sel : AxisOpt → Option ℚ) (get : Vec3 → ℚ) (set : Vec3 → ℚ → Vec3)
    (rotrad : Vec3) (s c0 : ℕ) (st : DrawState) (h : SeedInv s c0 st) :
    SeedInv s c0 (rot_axis_step S nd sel get set rotrad s st).2 := by
  cases nd with
  | none => simpa [rot_axis_step] using h
  | some d =>
    cases hsel : sel d with
    | none => simpa [rot_axis_step, hsel] using h
    | some kk => simpa [rot_axis_step, hsel] using seedInv_drawStep h

theorem scalar_noise_step_inv (S : Samplers) (nv : Option ℚ) (v : Option ℚ)
    (s c0 : ℕ) (st : DrawState) (h : SeedInv s c0 st) :
    SeedInv s c0 (scalar_noise_step S nv v s st).2 := by
  cases nv with
  | none => simpa [scalar_noise_step] using h
  | some sc =>
    cases v with
    | none => simpa [scalar_noise_step] using h
    | some x => simpa [scalar_noise_step] using seedInv_drawStep h

/-- Every draw of one `_random_placement` call records the call parameter
`sim_seed` (never the running counter), and the counter advances by exactly
one per draw. -/
theorem random_placement_seed_usage (n : RigidNoiseParams) (S : Samplers)
    (position : Option Vec3) (rotation : Vec3)
    (mass dynamic_friction static_friction bounciness : Option ℚ)
    (sim_seed counter : ℕ) :
    (∀ e ∈ (random_placement n S position rotation mass dynamic_friction
        static_friction bounciness sim_seed counter).seeds, e = sim_seed)
    ∧ (random_placement n S position rotation mass dynamic_friction
        static_friction bounciness sim_seed counter).counter =
      counter + (random_placement n S position rotation mass dynamic_friction
        static_friction bounciness sim_seed counter).seeds.length := by
  have h0 : SeedInv sim_seed counter ⟨counter, []⟩ := seedInv_init _ _
  exact scalar_noise_step_inv S _ _ _ _ _
    (scalar_noise_step_inv S _ _ _ _ _
      (scalar_noise_step_inv S _ _ _ _ _
        (scalar_noise_step_inv S _ _ _ _ _
          (rot_axis_step_inv S _ _ _ _ _ _ _ _
            (pos_axis_step_inv S _ _ _ _ _ _ _ _
              (rot_axis_step_inv S _ _ _ _ _ _ _ _
                (pos_axis_step_inv S _ _ _ _ _ _ _ _
                  (rot_axis_step_inv S _ _ _ _ _ _ _ _
                    (pos_axis_step_inv S _ _ _ _ _ _ _ _ h0)))))))))

/-- Invariant transported through the `_add_perturbation` fold. -/
theorem perturb_obj_fold_inv (n : RigidNoiseParams) (S : Samplers)
    (sim_seed : ℕ) (c0 : ℕ) :
    ∀ (objs : List (ℤ × ObjState)) (acc : List Cmd × ℕ × List ℕ),
      SeedInv sim_seed c0 ⟨acc.2.1, acc.2.2⟩ →
      SeedInv sim_seed c0
        ⟨(objs.foldl (perturb_obj_step n S sim_seed) acc).2.1,
         (objs.foldl (perturb_obj_step n S sim_seed) acc).2.2⟩ := by
  intro objs
  induction objs with
  | nil => intro acc h; exact h
  | cons o rest ih =>
    intro acc h
    simp only [List.foldl_cons]
    apply ih
    obtain ⟨h1, h2⟩ := h
    have h1' : ∀ e ∈ acc.2.2, e = sim_seed := h1
    have h2' : acc.2.1 = c0 + acc.2.2.length := h2
    obtain ⟨r1, r2⟩ := random_placement_seed_usage n S (some o.2.position) o.2.rotation
      (some o.2.mass) (some o.2.dynamic_friction) (some o.2.static_friction)
      (some o.2.bounciness) sim_seed acc.2.1
    constructor
    · intro e he
      have he' : e ∈ acc.2.2 ++ (random_placement n S (some o.2.position) o.2.rotation
          (some o.2.mass) (some o.2.dynamic_friction) (some o.2.static_friction)
          (some o.2.bounciness) sim_seed acc.2.1).seeds := he
      rcases List.mem_append.mp he' with he'' | he''
      · exact h1' e he''
      · exact r1 e he''
    · show (random_placement n S (some o.2.position) o.2.rotation
          (some o.2.mass) (some o.2.dynamic_friction) (some o.2.static_friction)
          (some o.2.bounciness) sim_seed acc.2.1).counter =
        c0 + (acc.2.2 ++ (random_placement n S (some o.2.position) o.2.rotation
          (some o.2.mass) (some o.2.dynamic_friction) (some o.2.static_friction)
          (some o.2.bounciness) sim_seed acc.2.1).seeds).length
      rw [List.length_append, r2, h2']
      omega

/-- The invariant for the full `add_perturbation` result. -/
theorem add_perturbation_seed_usage (n : RigidNoiseParams) (S : Samplers)
    (objs : List (ℤ × ObjState)) (sim_seed counter : ℕ) :
    (∀ e ∈ (add_perturbation n S objs sim_seed counter).2.2, e = sim_seed)
    ∧ (add_perturbation n S objs sim_seed counter).2.1 =
        counter + (add_perturbation n S objs sim_seed counter).2.2.length := by
  have := perturb_obj_fold_inv n S sim_seed counter objs ([], counter, [])
    (seedInv_init _ _)
  exact this

/-- Every `random_state` value recorded by the noise path of
`get_per_frame_commands` — the placement draws at the start frame and the
per-collision-event generator calls — equals the call parameter `sim_seed`,
and `self.sim_seed` advances by one per recorded entry. -/
theorem get_per_frame_commands_seed_usage (gen : Option (ℕ → Vec3 → Vec3))
    (start_simulate : ℤ) (coll_threshold : ℚ) (n : RigidNoiseParams) (S : Samplers)
    (objs : List (ℤ × ObjState)) (coll_data : List CollisionData)
    (frame : ℤ) (sim_seed counter : ℕ) :
    (∀ e ∈ (get_per_frame_commands gen start_simulate coll_threshold n S objs
        coll_data frame sim_seed counter).2.2, e = sim_seed)
    ∧ (get_per_frame_commands gen start_simulate coll_threshold n S objs
        coll_data frame sim_seed counter).2.1 =
      counter + (get_per_frame_commands gen start_simulate coll_threshold n S objs
        coll_data frame sim_seed counter).2.2.length := by
  unfold get_per_frame_commands
  cases gen with
  | none => exact seedInv_init sim_seed counter
  | some g =>
    by_cases hf : start_simulate ≤ frame
    · simp only [if_pos hf]
      have hpert : SeedInv sim_seed counter
          ⟨(if frame = start_simulate then add_perturbation n S objs sim_seed counter
            else ([], counter, [])).2.1,
           (if frame = start_simulate then add_perturbation n S objs sim_seed counter
            else ([], counter, [])).2.2⟩ := by
        by_cases he : frame = start_simulate
        · simp only [if_pos he]
          exact add_perturbation_seed_usage n S objs sim_seed counter
        · simp only [if_neg he]
          exact seedInv_init _ _
      revert hpert
      generalize (if frame = start_simulate then add_perturbation n S objs sim_seed counter
        else ([], counter, [])) = pert
      induction coll_data generalizing pert with
      | nil => intro h; exact h
      | cons cd rest ih =>
        intro h
        simp only [List.foldl_cons]
        apply ih
        obtain ⟨h1, h2⟩ := h
        have h1' : ∀ e ∈ pert.2.2, e = sim_seed := h1
        have h2' : pert.2.1 = counter + pert.2.2.length := h2
        constructor
        · intro e he
          have he' : e ∈ pert.2.2 ++ [sim_seed] := he
          rcases List.mem_append.mp he' with he'' | he''
          · exact h1' e he''
          · exact List.mem_singleton.mp he''
        · show pert.2.1 + 1 = counter + (pert.2.2 ++ [sim_seed]).length
          rw [List.length_append, List.length_singleton, h2']
          omega
    · simp only [if_neg hf]
      exact seedInv_init sim_seed counter

/-! ### Concrete sample data used by witnesses and counterexamples -/

/-- A concrete sampler instantiation for evaluating the engine on inputs. -/
def S0 : Samplers :=
  ⟨fun loc _ _ => loc + 1, fun _ loc _ => loc + 1, fun _ mu _ => mu, fun q => q⟩

/-- Position noise configured on the x and y axes only. -/
def cfgC5 : RigidNoiseParams := { position := some ⟨some 1, some 1, none⟩ }

/-- A collision event with zero impulse (below any positive threshold). -/
def collData_small : CollisionData :=
  ⟨1, 2, ⟨0, 0, 0⟩, ⟨0, 0, 0⟩, 1, [⟨0, 0, 0⟩], [⟨0, 1, 0⟩], CollState.enter⟩

/-- A degenerate collision event with zero recorded contact points. -/
def collData_noContacts : CollisionData :=
  ⟨1, 2, ⟨0, 0, 0⟩, ⟨0, -2, 0⟩, 0, [], [], CollState.enter⟩

/-- The synthetic event of spec §8.8: `impulse = (0, -2, 0)`, two contacts. -/
def collData_two : CollisionData :=
  ⟨1, 2, ⟨0, 0, 0⟩, ⟨0, -2, 0⟩, 2, [⟨0, 0, 0⟩, ⟨1, 0, 0⟩], [⟨0, 1, 0⟩, ⟨0, 1, 0⟩],
    CollState.enter⟩

/-! ### Claims -/

/-- **C1**: with the all-unset `NO_NOISE` configuration every noise-engine
function is the identity transform: `_random_placement` returns position,
rotation, mass, dynamic friction, static friction and bounciness unchanged
(performing no draws and leaving the seed counter untouched), the collision
noise generator is not installed, and `get_per_frame_commands` adds no
perturbation commands for any collision events. -/
theorem C1_no_noise_identity (S : Samplers) (position : Option Vec3) (rotation : Vec3)
    (mass dynamic_friction static_friction bounciness : Option ℚ)
    (sim_seed counter : ℕ) (start_simulate : ℤ) (coll_threshold : ℚ)
    (objs : List (ℤ × ObjState)) (coll_data : List CollisionData) (frame : ℤ) :
    random_placement NO_NOISE S position rotation mass dynamic_friction
        static_friction bounciness sim_seed counter =
      ⟨position, rotation, mass, dynamic_friction, static_friction, bounciness, counter, []⟩
    ∧ set_collision_noise_generator S NO_NOISE = none
    ∧ get_per_frame_commands (set_collision_noise_generator S NO_NOISE) start_simulate
        coll_threshold NO_NOISE S objs coll_data frame sim_seed counter =
      ([], counter, []) := by
  refine ⟨?_, rfl, rfl⟩
  cases rotation with
  | mk rx ry rz =>
    simp [random_placement, pos_axis_step, rot_axis_step, scalar_noise_step, NO_NOISE,
      rad2deg_deg2rad]

/-- **C2**: a collision event whose impulse has Euclidean norm strictly below
the configured threshold yields the empty command list, whatever the
installed generator does. -/
theorem C2_below_threshold_no_commands (cng : ℕ → Vec3 → Vec3) (coll_threshold : ℚ)
    (sim_seed : ℕ) (d : CollisionData)
    (h : Real.sqrt ((normSq d.impulse : ℚ) : ℝ) < (coll_threshold : ℝ)) :
    apply_collision_noise cng coll_threshold sim_seed (some d) = [] := by
  have hb : normLt d.impulse coll_threshold = true := (normLt_iff_sqrt _ _).mpr h
  unfold apply_collision_noise
  simp [hb]

theorem C2_witness :
    Real.sqrt ((normSq collData_small.impulse : ℚ) : ℝ) < ((1 : ℚ) : ℝ)
    ∧ apply_collision_noise (fun _ v => v) 1 0 (some collData_small) = [] := by
  have h : Real.sqrt ((normSq collData_small.impulse : ℚ) : ℝ) < ((1 : ℚ) : ℝ) := by
    have h0 : (normSq collData_small.impulse : ℚ) = 0 := by
      norm_num [collData_small, normSq]
    rw [h0]
    push_cast
    rw [Real.sqrt_zero]
    norm_num
  exact ⟨h, C2_below_threshold_no_commands _ _ _ _ h⟩

/-- **C3**: an event with zero recorded contact points produces the empty
command list — there is nothing to map the per-contact forces over, so the
event is effectively "no perturbation" (the intermediate division by the
zero contact count is total here, as numpy scalar division is: it warns and
yields inf/nan rather than raising). -/
theorem C3_zero_contacts_no_commands (cng : ℕ → Vec3 → Vec3) (coll_threshold : ℚ)
    (sim_seed : ℕ) (d : CollisionData)
    (h0 : d.num_contacts = 0) (hwf : d.contact_points.length = d.num_contacts) :
    apply_collision_noise cng coll_threshold sim_seed (some d) = [] := by
  have hcp : d.contact_points = [] := List.length_eq_zero.mp (by rw [hwf, h0])
  unfold apply_collision_noise
  by_cases hb : normLt d.impulse coll_threshold
  · simp [hb]
  · simp [hb, hcp]

theorem C3_witness :
    collData_noContacts.num_contacts = 0
    ∧ collData_noContacts.contact_points.length = collData_noContacts.num_contacts
    ∧ apply_collision_noise (fun _ v => v) (1 / 20) 7 (some collData_noContacts) = [] :=
  ⟨rfl, rfl, C3_zero_contacts_no_commands _ _ _ _ rfl rfl⟩

/-- **C4**: for an event at or above the threshold with `c > 0` contacts the
result is exactly `2 * c` `apply_force_at_position` commands: for each
contact point one on the patient with per-axis force
`(perturbed - original) / c`, and one on the agent with the per-axis
negation of that force. -/
theorem C4_force_commands (cng : ℕ → Vec3 → Vec3) (coll_threshold : ℚ) (sim_seed : ℕ)
    (d : CollisionData)
    (hth : (coll_threshold : ℝ) ≤ Real.sqrt ((normSq d.impulse : ℚ) : ℝ))
    (hc : 0 < d.num_contacts)
    (hwf : d.contact_points.length = d.num_contacts) :
    (apply_collision_noise cng coll_threshold sim_seed (some d) =
      (d.contact_points.map fun cp =>
        Cmd.apply_force_at_position
          ⟨(calculate_collision_differential d.impulse (cng sim_seed d.impulse)).x /
              (d.num_contacts : ℚ),
           (calculate_collision_differential d.impulse (cng sim_seed d.impulse)).y /
              (d.num_contacts : ℚ),
           (calculate_collision_differential d.impulse (cng sim_seed d.impulse)).z /
              (d.num_contacts : ℚ)⟩ cp d.patient_id) ++
      (d.contact_points.map fun cp =>
        Cmd.apply_force_at_position
          ⟨-((calculate_collision_differential d.impulse (cng sim_seed d.impulse)).x /
              (d.num_contacts : ℚ)),
           -((calculate_collision_differential d.impulse (cng sim_seed d.impulse)).y /
              (d.num_contacts : ℚ)),
           -((calculate_collision_differential d.impulse (cng sim_seed d.impulse)).z /
              (d.num_contacts : ℚ))⟩ cp d.agent_id))
    ∧ (apply_collision_noise cng coll_threshold sim_seed (some d)).length =
        2 * d.num_contacts := by
  have hb' : ¬ (normLt d.impulse coll_threshold = true) := by
    rw [normLt_iff_sqrt]
    exact not_lt.mpr hth
  have hb : normLt d.impulse coll_threshold = false := by
    cases hx : normLt d.impulse coll_threshold
    · rfl
    · exact absurd hx hb'
  constructor
  · unfold apply_collision_noise
    simp [hb, neg_div]
  · unfold apply_collision_noise
    simp [hb, hwf]
    omega

theorem C4_witness :
    ((1 / 20 : ℚ) : ℝ) ≤ Real.sqrt ((normSq collData_two.impulse : ℚ) : ℝ)
    ∧ 0 < collData_two.num_contacts
    ∧ collData_two.contact_points.length = collData_two.num_contacts
    ∧ (apply_collision_noise (fun _ v => v) (1 / 20) 3 (some collData_two)).length =
        2 * collData_two.num_contacts := by
  have hth : ((1 / 20 : ℚ) : ℝ) ≤ Real.sqrt ((normSq collData_two.impulse : ℚ) : ℝ) := by
    have h4 : (normSq collData_two.impulse : ℚ) = 4 := by
      norm_num [collData_two, normSq]
    rw [h4]
    have h22 : ((4 : ℚ) : ℝ) = 2 ^ 2 := by norm_num
    rw [h22, Real.sqrt_sq (by norm_num : (0 : ℝ) ≤ 2)]
    norm_num
  exact ⟨hth, by decide, rfl,
    (C4_force_commands (fun _ v => v) (1 / 20) 3 collData_two hth (by decide) rfl).2⟩

/-- **C6**: with `external_complete` equal to `is_done resp frame` for frame
numbers `≥ 1` and `false` otherwise (the first-frame write passes `-1`),
the recorded labels satisfy `trial_end = sleeping OR complete`,
`trial_timeout = sleeping AND NOT complete`,
`trial_complete = complete AND NOT sleeping`, and the timeout and complete
flags are never both true. -/
theorem C6_frame_label_formulas (is_done : ℤ → Bool) (frame_num : ℤ) (sleeping : Bool) :
    ((write_frame_labels is_done frame_num sleeping).1.trial_end
        = (sleeping || (if 1 ≤ frame_num then is_done frame_num else false)))
    ∧ ((write_frame_labels is_done frame_num sleeping).1.trial_timeout
        = (sleeping && !(if 1 ≤ frame_num then is_done frame_num else false)))
    ∧ ((write_frame_labels is_done frame_num sleeping).1.trial_complete
        = ((if 1 ≤ frame_num then is_done frame_num else false) && !sleeping))
    ∧ (((write_frame_labels is_done frame_num sleeping).1.trial_timeout
        && (write_frame_labels is_done frame_num sleeping).1.trial_complete) = false) := by
  by_cases h : frame_num > 0
  · have h1 : (1 : ℤ) ≤ frame_num := by omega
    cases hd : is_done frame_num <;> cases sleeping <;>
      simp [write_frame_labels, h, h1, hd]
  · have h1 : ¬ (1 : ℤ) ≤ frame_num := by omega
    cases sleeping <;> simp [write_frame_labels, h, h1]

/-- **C5 counterexample**: with position noise configured on the x and y
axes, the two draws of one `_random_placement` call both pass `random_state
= 5` — the call parameter — even though the counter advances from 5 to 7;
two distinct draws therefore use the same counter value, falsifying the
claim that every draw takes the *current* counter value. -/
theorem C5_counterexample_shared_seed :
    (random_placement cfgC5 S0 (some ⟨0, 0, 0⟩) ⟨0, 0, 0⟩ none none none none 5 5).seeds
        = [5, 5]
    ∧ (random_placement cfgC5 S0 (some ⟨0, 0, 0⟩) ⟨0, 0, 0⟩ none none none none 5 5).counter
        = 7
    ∧ ¬ ([5, 5] : List ℕ).Nodup := by
  refine ⟨rfl, rfl, by decide⟩

/-- **C5 (amended)**: every stochastic draw of the noise engine — the
per-field draws inside `_random_placement` and the per-event draws of the
collision-noise stage of `get_per_frame_commands` — passes the `sim_seed`
value given to the enclosing call (not the running counter), and
`self.sim_seed` is incremented by exactly one after each draw; draws within
one call therefore share the same random-state value. -/
theorem C5_amended_parameter_seed (n : RigidNoiseParams) (S : Samplers)
    (position : Option Vec3) (rotation : Vec3)
    (mass dynamic_friction static_friction bounciness : Option ℚ)
    (gen : Option (ℕ → Vec3 → Vec3)) (start_simulate : ℤ) (coll_threshold : ℚ)
    (objs : List (ℤ × ObjState)) (coll_data : List CollisionData) (frame : ℤ)
    (sim_seed counter : ℕ) :
    ((∀ e ∈ (random_placement n S position rotation mass dynamic_friction
          static_friction bounciness sim_seed counter).seeds, e = sim_seed)
      ∧ (random_placement n S position rotation mass dynamic_friction
          static_friction bounciness sim_seed counter).counter =
        counter + (random_placement n S position rotation mass dynamic_friction
          static_friction bounciness sim_seed counter).seeds.length)
    ∧ ((∀ e ∈ (get_per_frame_commands gen start_simulate coll_threshold n S objs
          coll_data frame sim_seed counter).2.2, e = sim_seed)
      ∧ (get_per_frame_commands gen start_simulate coll_threshold n S objs
          coll_data frame sim_seed counter).2.1 =
        counter + (get_per_frame_commands gen start_simulate coll_threshold n S objs
          coll_data frame sim_seed counter).2.2.length) :=
  ⟨random_placement_seed_usage n S position rotation mass dynamic_friction
      static_friction bounciness sim_seed counter,
   get_per_frame_commands_seed_usage gen start_simulate coll_threshold n S objs
      coll_data frame sim_seed counter⟩

theorem C5_amended_witness :
    (random_placement cfgC5 S0 (some ⟨0, 0, 0⟩) ⟨0, 0, 0⟩ none none none none 5 5).counter
      = 5 + (random_placement cfgC5 S0 (some ⟨0, 0, 0⟩) ⟨0, 0, 0⟩ none none none none
          5 5).seeds.length :=
  (C5_amended_parameter_seed cfgC5 S0 (some ⟨0, 0, 0⟩) ⟨0, 0, 0⟩ none none none none
    none 0 1 [] [] 0 5 5).1.2

/-- Frame indices produced by the stepping loop never exceed
`frame + fuel`. -/
theorem step_loop_frame_le (sl : ℕ → Bool) :
    ∀ (fuel frame : ℕ) (done : Bool), ∀ e ∈ step_loop sl frame done fuel,
      e.1 ≤ frame + fuel := by
  intro fuel
  induction fuel with
  | zero =>
    intro frame done e he
    simp [step_loop] at he
  | succ k ih =>
    intro frame done e he
    by_cases hd : done = true
    · simp [step_loop, hd] at he
    · simp only [step_loop, if_neg hd, List.mem_cons] at he
      rcases he with he | he
      · subst he
        omega
      · have := ih (frame + 1) (sl (frame + 1)) e he
        omega

set_option maxRecDepth 8000

/-- **C7 counterexample**: with a never-sleeping run and `is_done` constantly
false at `max_frames = 250`, the trial does run exactly 250 loop steps and
the last written frame is frame 250 with `sleeping = false` — but the labels
recorded for it have `trial_timeout = false` (and `trial_complete = false`),
not `trial_timeout = true` as claimed. -/
theorem C7_counterexample_timeout_flag :
    (trial_frames (fun _ => false) 250).length = 250
    ∧ (trial_frames (fun _ => false) 250).getLast? = some (250, false)
    ∧ (write_frame_labels (fun _ => false) 250 false).1.trial_timeout = false
    ∧ (write_frame_labels (fun _ => false) 250 false).1.trial_complete = false := by
  exact ⟨rfl, rfl, rfl, rfl⟩

/-- **C7 (amended)**: the loop runs while `NOT done AND frame < max_frames`
(`done` being the sleeping flag returned by `_write_frame`), so no written
frame index exceeds `max_frames`; when frame `max_frames` is reached without
`done` the loop still exits and the trial proceeds to cleanup, but the last
frame's recorded `trial_timeout` equals its sleeping flag — in the scenario
with `is_complete` always false and objects never sleeping at
`max_frames = 250`, the trial runs exactly 250 steps and its last frame
records `trial_timeout = false` and `trial_complete = false`. -/
theorem C7_amended_loop_bound (sleeping : ℕ → Bool) (max_frames : ℕ) :
    (∀ e ∈ trial_frames sleeping max_frames, e.1 ≤ max_frames)
    ∧ (trial_frames (fun _ => false) 250).length = 250
    ∧ (trial_frames (fun _ => false) 250).getLast? = some (250, false)
    ∧ (write_frame_labels (fun _ => false) 250 false).1.trial_timeout = false
    ∧ (write_frame_labels (fun _ => false) 250 false).1.trial_complete = false := by
  refine ⟨?_, rfl, rfl, rfl, rfl⟩
  intro e he
  have := step_loop_frame_le sleeping max_frames 0 false e he
  omega

theorem C7_amended_witness : ((250 : ℕ), false).1 ≤ 250 := by
  exact (C7_amended_loop_bound (fun _ => false) 250).1 (250, false) (by decide)

/-- The fold initializer is a lower bound of the running maximum. -/
theorem foldl_max_init_le (l : List ℕ) :
    ∀ a : ℤ, a ≤ l.foldl scan_step a := by
  induction l with
  | nil =>
    intro a
    simp
  | cons b t ih =>
    intro a
    rw [List.foldl_cons]
    exact le_trans (le_max_left a (b : ℤ)) (ih (scan_step a b))

/-- Every scanned stem is bounded by the running maximum. -/
theorem mem_le_foldl_max (l : List ℕ) :
    ∀ (a : ℤ) (x : ℕ), x ∈ l → (x : ℤ) ≤ l.foldl scan_step a := by
  induction l with
  | nil =>
    intro a x hx
    simp at hx
  | cons b t ih =>
    intro a x hx
    rcases List.mem_cons.mp hx with h | h
    · subst h
      rw [List.foldl_cons]
      exact le_trans (le_max_right a (x : ℤ)) (foldl_max_init_le t (scan_step a x))
    · rw [List.foldl_cons]
      exact ih (scan_step a b) x h

/-- Every finalized stem is strictly below the scan's `exists_up_to`. -/
theorem mem_stems_lt_exists_up_to (stems : List ℕ) (x : ℕ) (hx : x ∈ stems) :
    x < exists_up_to stems := by
  unfold exists_up_to
  have h1 := mem_le_foldl_max stems (-1) x hx
  have h2 := foldl_max_init_le stems (-1)
  omega

/-- **C8 counterexample**: with no finalized files (`next_index = 0`),
`num = 2` trials requested and `self.indexes = [1]`, the noisy trial loop
never invokes index 0 even though 0 lies in `[next_index, num)` and has no
finalized file — falsifying "exactly once for each index in the range". -/
theorem C8_counterexample_filtered_index :
    exists_up_to [] = 0
    ∧ (0 : ℕ) < 2
    ∧ (0 : ℕ) ∉ noisy_trial_loop_indices [] 2 [1] := by
  decide

/-- **C8 (amended)**: the scan computes `next_index = max(stems) + 1` (0 when
none exist) and `Dataset.trial_loop` invokes the trial exactly once for each
index in `[next_index, num)` in strictly increasing order, never
re-executing a finalized stem; `NoisyRigidbodiesDataset.trial_loop` invokes
exactly those indices of `[next_index, num)` that also lie in
`self.indexes`, skipping the rest. -/
theorem C8_amended_schedule (stems : List ℕ) (num : ℕ) (indexes : List ℕ) (i : ℕ) :
    (i ∈ base_trial_loop_indices stems num ↔ exists_up_to stems ≤ i ∧ i < num)
    ∧ List.Pairwise (· < ·) (base_trial_loop_indices stems num)
    ∧ (∀ s ∈ stems, s ∉ base_trial_loop_indices stems num)
    ∧ (i ∈ noisy_trial_loop_indices stems num indexes ↔
        i ∈ base_trial_loop_indices stems num ∧ i ∈ indexes) := by
  have hmem : ∀ j : ℕ, j ∈ base_trial_loop_indices stems num ↔
      exists_up_to stems ≤ j ∧ j < num := by
    intro j
    unfold base_trial_loop_indices
    rw [List.mem_range'_1]
    omega
  refine ⟨hmem i, ?_, ?_, ?_⟩
  · unfold base_trial_loop_indices
    exact List.pairwise_lt_range' _ _
  · intro s hs
    rw [hmem s]
    intro hin
    have := mem_stems_lt_exists_up_to stems s hs
    omega
  · unfold noisy_trial_loop_indices
    rw [List.mem_filter]
    simp

theorem C8_amended_witness :
    ((1 : ℕ) ∈ base_trial_loop_indices [] 2 ↔ exists_up_to [] ≤ 1 ∧ 1 < 2)
    ∧ (0 : ℕ) ∉ base_trial_loop_indices [0] 2 :=
  ⟨(C8_amended_schedule [] 2 [1] 1).1,
   (C8_amended_schedule [0] 2 [] 0).2.2.1 0 (by decide)⟩

/-- **C9**: the no-noise `Dataset.trial` writes the `static` section exactly
once, before any frame record; but the noise-injection
`NoisyRigidbodiesDataset.trial` never writes a `static` section at all
(zero writes), contradicting its own docstring ("Write static and per-frame
data to disk") and the claimed invariant. -/
theorem C9_static_section (sleeping : ℕ → Bool) (max_frames : ℕ) :
    ((base_trial_ops sleeping max_frames).count StoreOp.static = 1
      ∧ ∃ l, base_trial_ops sleeping max_frames =
          StoreOp.azimuth :: StoreOp.static :: l ∧ StoreOp.static ∉ l)
    ∧ (noisy_trial_ops sleeping max_frames).count StoreOp.static = 0 := by
  have hmap : StoreOp.static ∉
      (trial_frames sleeping max_frames).map (fun e : ℕ × Bool => StoreOp.frame e.1) := by
    intro h
    obtain ⟨e, he, heq⟩ := List.mem_map.mp h
    exact StoreOp.noConfusion heq
  refine ⟨⟨?_, ?_⟩, ?_⟩
  · show (([StoreOp.azimuth, StoreOp.static, StoreOp.frames_group, StoreOp.frame 0] ++
      (trial_frames sleeping max_frames).map (fun e : ℕ × Bool => StoreOp.frame e.1)).count
        StoreOp.static) = 1
    rw [List.count_append]
    rw [List.count_eq_zero.mpr hmap]
    rfl
  · refine ⟨StoreOp.frames_group :: StoreOp.frame 0 ::
      (trial_frames sleeping max_frames).map (fun e : ℕ × Bool => StoreOp.frame e.1),
      rfl, ?_⟩
    intro hmem
    rcases List.mem_cons.mp hmem with h | h
    · exact StoreOp.noConfusion h
    · rcases List.mem_cons.mp h with h2 | h2
      · exact StoreOp.noConfusion h2
      · exact hmap h2
  · show (([StoreOp.frames_group, StoreOp.frame 0] ++
      (trial_frames sleeping max_frames).map (fun e : ℕ × Bool => StoreOp.frame e.1)).count
        StoreOp.static) = 0
    rw [List.count_append]
    rw [List.count_eq_zero.mpr hmap]
    rfl

/-- **C10 counterexample**: with the temporary file and an already-finalized
target both present, `finalize_trial` succeeds (no error) and the target's
previous content `2` is silently replaced by the temp file's content `1`. -/
theorem C10_counterexample_silent_overwrite :
    List.lookup "0000.hdf5" ([("temp.hdf5", 1), ("0000.hdf5", 2)] : FS) = some 2
    ∧ finalize_trial "temp.hdf5" "0000.hdf5" [("temp.hdf5", 1), ("0000.hdf5", 2)]
        = Except.ok [("0000.hdf5", 1)] := by
  exact ⟨rfl, rfl⟩

/-- **C10 (amended)**: finalization moves the temporary store file to the
final path via `shutil.move`; whenever the source exists the move succeeds
and afterwards the final path holds the temp file's content — an existing
finalized file at the target is silently replaced, no error is raised. -/
theorem C10_amended_move_replaces (fs : FS) (src dst : String) (v : ℕ)
    (h : List.lookup src fs = some v) :
    ∃ fs2, finalize_trial src dst fs = Except.ok fs2
      ∧ List.lookup dst fs2 = some v := by
  refine ⟨(dst, v) :: (fs.filter fun e => !(e.1 == src) && !(e.1 == dst)), ?_, ?_⟩
  · unfold finalize_trial shutil_move
    rw [h]
  · simp [List.lookup]

theorem C10_amended_witness :
    List.lookup "temp.hdf5" ([("temp.hdf5", 7)] : FS) = some 7
    ∧ ∃ fs2, finalize_trial "temp.hdf5" "0003.hdf5" [("temp.hdf5", 7)] = Except.ok fs2
        ∧ List.lookup "0003.hdf5" fs2 = some 7 := by
  have h : List.lookup "temp.hdf5" ([("temp.hdf5", 7)] : FS) = some 7 := rfl
  exact ⟨h, C10_amended_move_replaces _ _ _ _ h⟩

end TdwPhysics
